import Mathlib

/-!
# Verification of the stub-analyzer symbol comparison and collection core

Shallow embedding of `stub_analyzer/compare.py` and `stub_analyzer/api.py`
(kialo/stub-analyzer).  The mypy type oracle (`mypy.subtypes.is_subtype`,
`mypy.meet.is_overlapping_types`) is external to the repository and is
modelled as an injected pair of boolean predicates.  The helper module
`stub_analyzer/utils.py` (`strict_kind_count`, `arg_star_count`,
`arg_star2_count`, `get_expression_fullname`) is not among the sources;
those helpers are modelled from the specification text, as marked on each
definition.
-/

namespace StubAnalyzer

/-! ## `MatchResult` (compare.py, class MatchResult) -/

/-- The four comparison outcomes.  The source enum member `MATCH` has the
string value `"match"`; since `match` is reserved in Lean we call the
constructor `matched`. -/
inductive MatchResult where
  | matched
  | mismatch
  | not_found
  | mislocated_symbol
deriving DecidableEq, Repr

/-- The string value of each enum member (`MatchResult.MATCH.value` etc.). -/
def MatchResult.value : MatchResult → String
  | .matched => "match"
  | .mismatch => "mismatch"
  | .not_found => "not_found"
  | .mislocated_symbol => "mislocated_symbol"

/-- All enum members, in declaration order (iteration over `MatchResult`). -/
def MatchResult.members : List MatchResult :=
  [.matched, .mismatch, .not_found, .mislocated_symbol]

/-- The value-based enum lookup `MatchResult(matchResultString)`: returns the
member whose `value` equals the string, or `none` (the source raises
`ValueError`, caught by the caller). -/
def MatchResult.fromValue (matchResultString : String) : Option MatchResult :=
  MatchResult.members.find? (fun m => m.value == matchResultString)

/-- The error message of `MatchResult.declare_mismatch`:
`'"{s}" is not a valid mismatch type. (Use one of {possible_values}'` where
`possible_values` joins the quoted values of every member other than
`MATCH`. -/
def MatchResult.declareMismatchError (matchResultString : String) : String :=
  let possible_values := String.intercalate ", "
    ((MatchResult.members.filter (fun m => m ≠ .matched)).map
      (fun m => "\"" ++ m.value ++ "\""))
  "\"" ++ matchResultString ++ "\" is not a valid mismatch type." ++
    " (Use one of " ++ possible_values

/-- `MatchResult.declare_mismatch`: parse an expected-outcome string.  The
source sets `err` when the string equals `"match"`, tries the value lookup
(setting `err` on `ValueError`), and raises when `err` holds; raising is
modelled as `Except.error`. -/
def MatchResult.declare_mismatch (matchResultString : String) :
    Except String MatchResult :=
  let err := matchResultString == MatchResult.matched.value
  match MatchResult.fromValue matchResultString with
  | none => .error (MatchResult.declareMismatchError matchResultString)
  | some result =>
      if err then .error (MatchResult.declareMismatchError matchResultString)
      else .ok result

/-! ## mypy types and the injected type oracle -/

/-- mypy argument kinds (`ARG_POS`, `ARG_OPT`, `ARG_STAR`, `ARG_NAMED`,
`ARG_STAR2`, `ARG_NAMED_OPT`): required positional, optional positional,
`*args`, required keyword, `**kwargs`, optional keyword. -/
inductive ArgKind where
  | arg_pos
  | arg_opt
  | arg_star
  | arg_named
  | arg_star2
  | arg_named_opt
deriving DecidableEq, Repr

/-- A mypy `CallableType`, reduced to what the comparison logic inspects
directly: its list of argument kinds.  `sigId` stands for everything else in
the signature (parameter types, return type, names); it is consulted only
through the injected type oracle. -/
structure CallableType where
  arg_kinds : List ArgKind
  sigId : Nat
deriving DecidableEq, Repr

/-- A mypy `Type` as far as the comparison logic discriminates it: a
`CallableType`, an `Overloaded` (list of callable items), or any other type
(identified by an id the oracle can inspect). -/
inductive TypeNode where
  | callable (c : CallableType)
  | overloaded (items : List CallableType)
  | other (typeId : Nat)
deriving DecidableEq, Repr

/-- Is the type a mypy `FunctionLike` (`CallableType` or `Overloaded`)? -/
def TypeNode.isFunctionLike : TypeNode → Bool
  | .callable _ => true
  | .overloaded _ => true
  | .other _ => false

/-- The external type oracle: `mypy.subtypes.is_subtype` and
`mypy.meet.is_overlapping_types`, injected as pure boolean predicates
(they are outside this repository). -/
structure Oracle where
  is_subtype : TypeNode → TypeNode → Bool
  is_overlapping_types : TypeNode → TypeNode → Bool

/-! ## utils.py helpers (module not among the sources; modelled from the spec) -/

/-- Modelled from the spec: `strict_kind_count` lives in
`stub_analyzer/utils.py`, which is not among the sources.  The spec defines
a strict parameter as "a non-variadic (non `*args`/`**kwargs`) parameter",
so this counts the argument kinds other than `ARG_STAR` and `ARG_STAR2`. -/
def strict_kind_count (arg_kinds : List ArgKind) : Nat :=
  (arg_kinds.filter (fun k => !(k == .arg_star || k == .arg_star2))).length

/-- Modelled from the spec: `arg_star_count` (from `stub_analyzer/utils.py`,
not among the sources) counts the variadic-positional (`*args`) argument
kinds. -/
def arg_star_count (arg_kinds : List ArgKind) : Nat :=
  (arg_kinds.filter (fun k => k == .arg_star)).length

/-- Modelled from the spec: `arg_star2_count` (from `stub_analyzer/utils.py`,
not among the sources) counts the variadic-keyword (`**kwargs`) argument
kinds. -/
def arg_star2_count (arg_kinds : List ArgKind) : Nat :=
  (arg_kinds.filter (fun k => k == .arg_star2)).length

/-! ## Type matching rules (compare.py) -/

/-- `_mypy_types_match`: MATCH iff the types overlap or the symbol type is a
subtype of the reference type, per the oracle. -/
def _mypy_types_match (oracle : Oracle)
    (symbol_type reference_type : TypeNode) : MatchResult :=
  if oracle.is_overlapping_types symbol_type reference_type ||
      oracle.is_subtype symbol_type reference_type then
    .matched
  else .mismatch

/-- `_callable_types_match`: the callable rule.  Mismatch when the candidate
has more strict parameters than the reference; otherwise require equal
strict counts and no more `*args`/`**kwargs` slots than the reference, then
fall back to `_mypy_types_match` on the two signatures as whole types. -/
def _callable_types_match (oracle : Oracle)
    (callable_type reference_callable : CallableType) : MatchResult :=
  let callable_kinds := callable_type.arg_kinds
  let reference_kinds := reference_callable.arg_kinds
  let strict_kind_count_callable := strict_kind_count callable_kinds
  let strict_kind_count_reference := strict_kind_count reference_kinds
  if strict_kind_count_callable > strict_kind_count_reference then
    .mismatch
  else
    let arg_kinds_match :=
      strict_kind_count_callable == strict_kind_count_reference &&
      arg_star_count callable_kinds ≤ arg_star_count reference_kinds &&
      arg_star2_count callable_kinds ≤ arg_star2_count reference_kinds
    if !arg_kinds_match then .mismatch
    else _mypy_types_match oracle (.callable callable_type)
      (.callable reference_callable)

/-- `_overloaded_types_match`: the overload rule.  Mismatch on differing item
counts; otherwise every positionally zipped pair of items must pass the
callable rule. -/
def _overloaded_types_match (oracle : Oracle)
    (overloaded reference_overloaded : List CallableType) : MatchResult :=
  if overloaded.length ≠ reference_overloaded.length then .mismatch
  else if (overloaded.zip reference_overloaded).all
      (fun p => _callable_types_match oracle p.1 p.2 == .matched) then
    .matched
  else .mismatch

/-! ## Symbol nodes (mypy.nodes, as used by compare.py) -/

/-- Variance of a `TypeVarExpr` (`INVARIANT`, `COVARIANT`, `CONTRAVARIANT`). -/
inductive Variance where
  | invariant
  | covariant
  | contravariant
deriving DecidableEq, Repr

/-- A decorator expression, as consumed through `get_expression_fullname`:
either an expression resolving to a fully qualified reference name, or some
other expression without one. -/
inductive Expression where
  | ref (fullname : String)
  | unresolved
deriving DecidableEq, Repr

/-- Modelled from the spec: `get_expression_fullname` (from
`stub_analyzer/utils.py`, not among the sources) extracts the
decorator-reference name of an expression, when it has one. -/
def get_expression_fullname : Expression → Option String
  | .ref fullname => some fullname
  | .unresolved => none

/-- The payload of a mypy `FuncDef` as the comparison logic uses it: its
full name and its (optional) mypy type. -/
structure FuncDefData where
  fullname : String
  type : Option TypeNode
deriving DecidableEq, Repr

/-- The `RelevantSymbolNode` union (api.py): `Decorator`, `FuncDef`,
`OverloadedFuncDef`, `Var`, `TypeInfo`, `TypeVarExpr`, `TypeAlias`, each
reduced to the fields `compare.py` inspects.  `TypeAlias.target` and
`TypeVarExpr.upper_bound` are non-optional in mypy. -/
inductive SymbolNode where
  | typeInfo (fullname : String)
  | typeAlias (fullname : String) (target : TypeNode)
  | typeVarExpr (fullname name : String) (values : List TypeNode)
      (upper_bound : TypeNode) (variance : Variance)
  | decorator (fullname : String) (original_decorators : List Expression)
      (func : FuncDefData)
  | funcDef (f : FuncDefData)
  | overloadedFuncDef (fullname : String) (type : Option TypeNode)
  | var (fullname : String) (type : Option TypeNode)
deriving DecidableEq, Repr

/-- `symbol.fullname()`. -/
def SymbolNode.fullname : SymbolNode → String
  | .typeInfo n => n
  | .typeAlias n _ => n
  | .typeVarExpr n _ _ _ _ => n
  | .decorator n _ _ => n
  | .funcDef f => f.fullname
  | .overloadedFuncDef n _ => n
  | .var n _ => n

/-- The Python class of a symbol node, as a discriminant: models the
`type(symbol) != type(reference)` test in `compare_symbols`. -/
def SymbolNode.pyClass : SymbolNode → Nat
  | .typeInfo _ => 0
  | .typeAlias _ _ => 1
  | .typeVarExpr _ _ _ _ _ => 2
  | .decorator _ _ _ => 3
  | .funcDef _ => 4
  | .overloadedFuncDef _ _ => 5
  | .var _ _ => 6

/-- `getattr(symbol, "type")` for the symbol kinds that reach the final
branch of `compare_symbols` (`FuncDef`, `OverloadedFuncDef`, `Var`).  The
other kinds are dispatched before the attribute is read; for them we return
`none` (the catch-all is unreachable in `compare_symbols`). -/
def SymbolNode.typeAttr : SymbolNode → Option TypeNode
  | .funcDef f => f.type
  | .overloadedFuncDef _ t => t
  | .var _ t => t
  | _ => none

/-! ## `ComparisonResult` (compare.py) -/

/-- The auxiliary `data` dictionary attached to a `ComparisonResult`.  The
comparison engine itself only ever attaches the decorator-list payload
(keys `"Symbol decorators"` and `"Reference decorators"`). -/
inductive AuxData where
  | decoratorLists (symbolDecorators referenceDecorators : List (Option String))
deriving DecidableEq, Repr

/-- A human readable rendering of a mypy type (stands in for `repr`). -/
def TypeNode.render : TypeNode → String
  | .callable c => "CallableType(" ++ toString c.sigId ++ ")"
  | .overloaded items => "Overloaded(" ++ toString items.length ++ ")"
  | .other typeId => "Type(" ++ toString typeId ++ ")"

/-- Rendering of an optional mypy type (`repr(getattr(symbol, "type", None))`). -/
def renderOptType : Option TypeNode → String
  | none => "None"
  | some t => t.render

/-- `_format_type_var`: format a `TypeVarExpr` as it would be written in
code, `{name} = TypeVar({name}{values}{variance})`. -/
def _format_type_var (fullname name : String) (values : List TypeNode)
    (variance : Variance) : String :=
  let varianceStr :=
    match variance with
    | .covariant => ", covariant=True"
    | .contravariant => ", contravariant=True"
    | .invariant => ""
  let valuesStr :=
    if values.isEmpty then ""
    else ", " ++ String.intercalate ", " (values.map TypeNode.render)
  let _ := fullname
  name ++ " = TypeVar(\x27" ++ name ++ "\x27" ++ valuesStr ++ varianceStr ++ ")"

/-- `_get_symbol_type_info`: the type of a symbol as a human readable
string. -/
def _get_symbol_type_info : SymbolNode → String
  | .typeAlias _ target => target.render
  | .typeVarExpr fullname name values _ variance =>
      _format_type_var fullname name values variance
  | .typeInfo fullname => "Class(" ++ fullname ++ ")"
  | s => renderOptType s.typeAttr

/-- `ComparisonResult`: the immutable record produced by every comparison. -/
structure ComparisonResult where
  match_result : MatchResult
  symbol : SymbolNode
  reference : Option SymbolNode
  symbol_name : String
  symbol_type : String
  reference_name : Option String
  reference_type : Option String
  data : Option AuxData := none
  message_val : Option String := none
deriving DecidableEq, Repr

namespace ComparisonResult

/-- `ComparisonResult.create`: fill the name/type fields from the two
symbols. -/
def create (match_result : MatchResult) (symbol : SymbolNode)
    (reference : Option SymbolNode) (data : Option AuxData := none)
    (message : Option String := none) : ComparisonResult :=
  { match_result := match_result
    symbol := symbol
    reference := reference
    data := data
    message_val := message
    symbol_name := symbol.fullname
    symbol_type := _get_symbol_type_info symbol
    reference_name := reference.map SymbolNode.fullname
    reference_type := reference.map _get_symbol_type_info }

/-- `ComparisonResult.create_mismatch`. -/
def create_mismatch (symbol reference : SymbolNode)
    (data : Option AuxData := none) (message : Option String := none) :
    ComparisonResult :=
  create .mismatch symbol (some reference) data message

/-- `ComparisonResult.create_match`. -/
def create_match (symbol reference : SymbolNode)
    (data : Option AuxData := none) (message : Option String := none) :
    ComparisonResult :=
  create .matched symbol (some reference) data message

end ComparisonResult

/-! ## Symbol comparison (compare.py) -/

/-- `compare_mypy_types`: MATCH when the reference type is `None`; MISMATCH
when only the symbol type is `None`; otherwise dispatch to the callable,
overload or generic rule. -/
def compare_mypy_types (oracle : Oracle) (symbol reference : SymbolNode)
    (symbol_type reference_type : Option TypeNode) : ComparisonResult :=
  match reference_type with
  | none =>
      -- MyPy does not have enough type information,
      -- hence we accept that our stub is correct
      ComparisonResult.create_match symbol reference none
        (some "Generated type is None")
  | some rt =>
      match symbol_type with
      | none => ComparisonResult.create_mismatch symbol reference
      | some st =>
          let m :=
            match st, rt with
            | .callable c, .callable r => _callable_types_match oracle c r
            | .overloaded o, .overloaded r => _overloaded_types_match oracle o r
            | st, rt => _mypy_types_match oracle st rt
          ComparisonResult.create m symbol (some reference)

/-- `_type_infos_are_same_class`: two `TypeInfo` symbols match iff their full
names are equal. -/
def _type_infos_are_same_class (symbolFullname referenceFullname : String) :
    ComparisonResult :=
  if symbolFullname == referenceFullname then
    ComparisonResult.create_match (.typeInfo symbolFullname)
      (.typeInfo referenceFullname)
  else
    ComparisonResult.create_mismatch (.typeInfo symbolFullname)
      (.typeInfo referenceFullname)

/-- The `NotImplementedError` message of `_compare_type_var_expr`, naming
both offending type variables via `_format_type_var`. -/
def typeVarNotImplementedMsg (sFull sName : String) (sValues : List TypeNode)
    (sVariance : Variance) (rFull rName : String) (rValues : List TypeNode)
    (rVariance : Variance) : String :=
  "Comparison of type variables (TypeVarExpr) with listed values is not" ++
    " implemented, encountered:" ++
    "\n - " ++ _format_type_var sFull sName sValues sVariance ++
    "\n - " ++ _format_type_var rFull rName rValues rVariance

/-- The final branch of `compare_symbols` (compare.py lines 520-528), for
the symbol kinds that carry a `type` attribute (`FuncDef`,
`OverloadedFuncDef`, `Var`): a `FunctionLike` symbol type with a `None`
reference type is a mismatch, otherwise the two `type` attributes go
through `compare_mypy_types`. -/
def compare_typed_symbols (oracle : Oracle) (symbol reference : SymbolNode) :
    ComparisonResult :=
  let symbol_type := symbol.typeAttr
  let reference_type := reference.typeAttr
  if reference_type = none ∧
      (symbol_type.map TypeNode.isFunctionLike).getD false then
    ComparisonResult.create_mismatch symbol reference
  else
    compare_mypy_types oracle symbol reference symbol_type reference_type

/-- `_compare_decorator`: match iff the mapped decorator-fullname lists are
equal and the wrapped functions match; on unequal lists, mismatch with both
lists attached as data.  The source recursion
`compare_symbols(symbol.func, reference.func)` compares two `FuncDef`
symbols of the same Python class and therefore lands in the final typed
branch of `compare_symbols`, embedded here as `compare_typed_symbols`
(see `compare_symbols_funcDef_eq_typed` below). -/
def _compare_decorator (oracle : Oracle) (symbol reference : SymbolNode)
    (sDecs rDecs : List Expression) (sFunc rFunc : FuncDefData) :
    ComparisonResult :=
  let symbol_decorators := sDecs.map get_expression_fullname
  let reference_decorators := rDecs.map get_expression_fullname
  if symbol_decorators = reference_decorators then
    let function_comparision :=
      compare_typed_symbols oracle (.funcDef sFunc) (.funcDef rFunc)
    ComparisonResult.create function_comparision.match_result
      symbol (some reference) function_comparision.data
      function_comparision.message_val
  else
    ComparisonResult.create_mismatch symbol reference
      (some (.decoratorLists symbol_decorators reference_decorators))
      (some ("Function " ++ sFunc.fullname ++
        " stubs have different decorators."))

/-- `compare_symbols`: kind dispatch.  Mismatch on differing Python classes;
classes compare by full name; aliases by target types; type variables by
upper bounds (raising — modelled as `Except.error` — when either has listed
values); decorators via `_compare_decorator`; everything else via the final
typed branch `compare_typed_symbols`. -/
def compare_symbols (oracle : Oracle) (symbol reference : SymbolNode) :
    Except String ComparisonResult :=
  if symbol.pyClass ≠ reference.pyClass then
    .ok (ComparisonResult.create_mismatch symbol reference)
  else
    match symbol, reference with
    | .typeInfo sn, .typeInfo rn =>
        .ok (_type_infos_are_same_class sn rn)
    | .typeAlias _ sTarget, .typeAlias _ rTarget =>
        -- the aliases' targets are compared as (non-optional) mypy types
        .ok (compare_mypy_types oracle symbol reference
          (some sTarget) (some rTarget))
    | .typeVarExpr sFull sName sValues sBound sVar,
      .typeVarExpr rFull rName rValues rBound rVar =>
        if sValues.isEmpty && rValues.isEmpty then
          .ok (compare_mypy_types oracle symbol reference
            (some sBound) (some rBound))
        else
          .error (typeVarNotImplementedMsg sFull sName sValues sVar
            rFull rName rValues rVar)
    | .decorator _ sDecs sFunc, .decorator _ rDecs rFunc =>
        .ok (_compare_decorator oracle symbol reference sDecs rDecs
          sFunc rFunc)
    | s, r =>
        .ok (compare_typed_symbols oracle s r)

/-! ## Symbol collection (api.py) -/

/-- Qualified names (`symbol_node.fullname()`). -/
abbrev QName := String

/-- Python's `"builtins" in fullname`: substring containment. -/
def containsBuiltins (fullname : QName) : Bool :=
  fullname.toList.tails.any (fun t => "builtins".toList.isPrefixOf t)

/-- The `SymbolTableNode.kind` values the collector's member loop looks at:
global definition, class-member definition, a reference created by an
import, or an unresolved import. -/
inductive SymKind where
  | gdef
  | mdef
  | moduleRef
  | unboundImported
deriving DecidableEq, Repr

/-- A `SymbolTableNode`, as iterated by `symbol_node.names.values()`: its
kind, its `module_public` flag, and its (possibly absent) target node,
identified by the target's qualified name in the declaration graph. -/
structure TableEntry where
  kind : SymKind
  module_public : Bool
  node : Option QName
deriving DecidableEq, Repr

/-- The shape of a symbol node as the collector discriminates it: a module
(`MypyFile`) with a symbol table, a class (`TypeInfo`) with a symbol table,
or one of the leaf kinds of the `RelevantSymbolNode` union. -/
inductive SymbolNodeData where
  | mypyFile (names : List TableEntry)
  | typeInfo (names : List TableEntry)
  | funcDef
  | overloadedFuncDef
  | var
  | typeAlias
  | typeVarExpr
  | decorator
deriving DecidableEq, Repr

/-- A declaration graph: each symbol node keyed by its qualified name.
Aliased and cyclic references are entries whose table rows point back at
already reachable names. -/
abbrev Heap := List (QName × SymbolNodeData)

/-- The qualified names present in a declaration graph. -/
def heapNames (heap : Heap) : Finset QName :=
  (heap.map Prod.fst).toFinset

/-- The member loop of the `MypyFile` branch of `collect_types`, with the
recursive `collect_types` call injected as `recurse`.  The source also
tests `symbol.kind not in [GDEF, MDEF]`, but that test guards only a
`pass` statement, so it filters nothing; recursion happens for every entry
with a node that is `module_public`. -/
def collectModuleMembers
    (recurse : QName → Finset QName → Finset QName × List QName) :
    List TableEntry → Finset QName → Finset QName × List QName
  | [], collected_types => (collected_types, [])
  | symbol :: rest, collected_types =>
      let _kind_check := symbol.kind ∉ [SymKind.gdef, SymKind.mdef]
      match symbol.node with
      | some node =>
          if symbol.module_public then
            let r1 := recurse node collected_types
            let r2 := collectModuleMembers recurse rest r1.1
            (r2.1, r1.2 ++ r2.2)
          else collectModuleMembers recurse rest collected_types
      | none => collectModuleMembers recurse rest collected_types

/-- The member loop of the `TypeInfo` branch of `collect_types`, with the
recursive `collect_types` call injected as `recurse`: recurse into every
class member that has a node, with no public/private filter. -/
def collectClassMembers
    (recurse : QName → Finset QName → Finset QName × List QName) :
    List TableEntry → Finset QName → Finset QName × List QName
  | [], collected_types => (collected_types, [])
  | class_member :: rest, collected_types =>
      match class_member.node with
      | some node =>
          let r1 := recurse node collected_types
          let r2 := collectClassMembers recurse rest r1.1
          (r2.1, r1.2 ++ r2.2)
      | none => collectClassMembers recurse rest collected_types

/-- `collect_types(symbol_node, collected_types)`, with the visited set
threaded explicitly and the generator's output reified as the list of
yielded qualified names.  Recursion depth is bounded by `fuel`; the
fuel-stability theorem below shows any fuel past the graph size computes
the same result, which is the termination argument.  Skips nodes whose
name contains `"builtins"`, skips already-visited names, recurses through
module and class symbol tables, and yields leaf symbols and class
symbols. -/
def collect_types (heap : Heap) : Nat → QName → Finset QName →
    Finset QName × List QName
  | 0, _, collected_types => (collected_types, [])
  | fuel + 1, name, collected_types =>
    -- ignore builtins because we don't provide stubs for them
    if containsBuiltins name then (collected_types, [])
    -- do not collect types twice
    else if name ∈ collected_types then (collected_types, [])
    else
      let collected := insert name collected_types
      match heap.lookup name with
      | some (.mypyFile names) =>
          -- the symbol node represents a Python module
          collectModuleMembers (collect_types heap fuel) names collected
      | some (.typeInfo names) =>
          -- the symbol represents a class definition:
          -- yield it, then every class member
          let r := collectClassMembers (collect_types heap fuel) names collected
          (r.1, name :: r.2)
      | some _ =>
          -- function definition, variable, type alias or generic TypeVar
          (collected, [name])
      | none => (collected, [])

/-- Fuel that always suffices for a full collection over `heap`. -/
def heapFuel (heap : Heap) : Nat :=
  heap.length + 1

/-- One call of the collector on the root of a declaration graph, as
performed by `get_stub_types` (`collect_types(module.tree)`): fresh empty
visited set, output reified as the list of yielded qualified names. -/
def collectTypesRun (heap : Heap) (root : QName) : List QName :=
  (collect_types heap (heapFuel heap) root ∅).2

/-! ## Auxiliary definitions for the verification -/

/-- Invariant of one collector step starting from visited set `visited`:
the visited set only grows, the yielded names are pairwise distinct, and
every yielded name was unvisited before the step, is visited after it, and
does not contain `"builtins"`. -/
def CollectOK (visited : Finset QName) (res : Finset QName × List QName) : Prop :=
  visited ⊆ res.1 ∧ res.2.Nodup ∧
    ∀ n ∈ res.2, n ∉ visited ∧ n ∈ res.1 ∧ containsBuiltins n = false

/-- A degenerate oracle under which every pair of types both overlaps and is
in a subtype relation: used to exhibit mismatches that are forced by the
parameter-kind shape checks alone, before the oracle is ever consulted. -/
def oracleTrue : Oracle :=
  { is_subtype := fun _ _ => true
    is_overlapping_types := fun _ _ => true }

/-! ## General lemmas -/

/-- `compare_symbols` on two `FuncDef` symbols is exactly the final typed
branch: justifies embedding the decorator recursion as
`compare_typed_symbols`. -/
theorem compare_symbols_funcDef_eq_typed (oracle : Oracle)
    (f g : FuncDefData) :
    compare_symbols oracle (.funcDef f) (.funcDef g) =
      .ok (compare_typed_symbols oracle (.funcDef f) (.funcDef g)) := rfl

/-! ## C9: expected-outcome string parsing -/

/-- C9: Parsing an expected-outcome string succeeds exactly for the strings
`"mismatch"`, `"not_found"` and `"mislocated_symbol"`, returning the
corresponding outcome; every other string — including `"match"` — yields
the validation error naming the valid alternatives. -/
theorem declare_mismatch_spec (s : String) :
    MatchResult.declare_mismatch s =
      if s = "mismatch" then .ok .mismatch
      else if s = "not_found" then .ok .not_found
      else if s = "mislocated_symbol" then .ok .mislocated_symbol
      else .error (MatchResult.declareMismatchError s) := by
  rcases eq_or_ne s "match" with h1 | h1
  · subst h1; rfl
  rcases eq_or_ne s "mismatch" with h2 | h2
  · subst h2; rfl
  rcases eq_or_ne s "not_found" with h3 | h3
  · subst h3; rfl
  rcases eq_or_ne s "mislocated_symbol" with h4 | h4
  · subst h4; rfl
  have e1 : ("match" == s) = false := beq_eq_false_iff_ne.mpr (Ne.symm h1)
  have e2 : ("mismatch" == s) = false := beq_eq_false_iff_ne.mpr (Ne.symm h2)
  have e3 : ("not_found" == s) = false := beq_eq_false_iff_ne.mpr (Ne.symm h3)
  have e4 : ("mislocated_symbol" == s) = false :=
    beq_eq_false_iff_ne.mpr (Ne.symm h4)
  simp [MatchResult.declare_mismatch, MatchResult.fromValue,
    MatchResult.members, MatchResult.value, List.find?, e1, e2, e3, e4,
    h2, h3, h4]

/-- Witness for `declare_mismatch_spec` at `"mislocated_symbol"` and at the
invalid string `"match"`. -/
theorem declare_mismatch_spec_witness :
    MatchResult.declare_mismatch "mislocated_symbol" =
        .ok .mislocated_symbol ∧
      MatchResult.declare_mismatch "match" =
        .error (MatchResult.declareMismatchError "match") := by
  have h1 := declare_mismatch_spec "mislocated_symbol"
  have h2 := declare_mismatch_spec "match"
  exact ⟨by simpa using h1, by simpa using h2⟩

/-! ## C4: callable strictness monotonicity -/

/-- C4: whenever the candidate signature has strictly more strict
(non-variadic) parameters than the reference signature, the callable rule
returns MISMATCH, for every oracle. -/
theorem callable_strictness_monotone (oracle : Oracle)
    (c r : CallableType)
    (h : strict_kind_count r.arg_kinds < strict_kind_count c.arg_kinds) :
    _callable_types_match oracle c r = .mismatch := by
  simp [_callable_types_match, h]

/-- Witness for `callable_strictness_monotone`: two required positional
parameters against one. -/
theorem callable_strictness_monotone_witness :
    strict_kind_count [ArgKind.arg_pos] <
        strict_kind_count [ArgKind.arg_pos, ArgKind.arg_pos] ∧
      _callable_types_match oracleTrue
        { arg_kinds := [.arg_pos, .arg_pos], sigId := 0 }
        { arg_kinds := [.arg_pos], sigId := 1 } = .mismatch :=
  ⟨by decide,
    callable_strictness_monotone oracleTrue
      { arg_kinds := [.arg_pos, .arg_pos], sigId := 0 }
      { arg_kinds := [.arg_pos], sigId := 1 } (by decide)⟩

/-! ## C3: Scenario A -/

/-- C3 counterexample: for the Scenario A pair — candidate
`f(x: int) -> str` (one required positional parameter), reference
`f(x: int, y: int = 0) -> str` (one required plus one optional positional
parameter) — the callable rule does not return MATCH, even under an oracle
that affirms every subtype and overlap query. -/
theorem scenario_a_counterexample :
    _callable_types_match oracleTrue
        { arg_kinds := [.arg_pos], sigId := 0 }
        { arg_kinds := [.arg_pos, .arg_opt], sigId := 1 } ≠ .matched := by
  decide

/-- C3 amended: on the Scenario A pair the callable rule returns MISMATCH
for every oracle: the candidate has 1 strict parameter and the reference 2
(an optional positional parameter is non-variadic, hence strict), and the
rule demands strict-count equality, which fails before the oracle is ever
consulted. -/
theorem scenario_a_mismatch (oracle : Oracle) :
    _callable_types_match oracle
        { arg_kinds := [.arg_pos], sigId := 0 }
        { arg_kinds := [.arg_pos, .arg_opt], sigId := 1 } = .mismatch := rfl

/-! ## C5: overload rule -/

/-- C5: the overload rule returns MATCH iff both overload sets have the same
number of alternative signatures and every positionally paired pair of
signatures, in declared order, passes the callable rule; overload sets of
differing length always yield MISMATCH. -/
theorem overloaded_types_match_spec (oracle : Oracle)
    (o r : List CallableType) :
    (_overloaded_types_match oracle o r = .matched ↔
      o.length = r.length ∧
        ∀ p ∈ o.zip r, _callable_types_match oracle p.1 p.2 = .matched) ∧
    (o.length ≠ r.length → _overloaded_types_match oracle o r = .mismatch) := by
  unfold _overloaded_types_match
  by_cases h : o.length = r.length
  · rw [if_neg (fun hc => hc h)]
    refine ⟨?_, fun hc => absurd h hc⟩
    by_cases hall : (o.zip r).all
        (fun p => _callable_types_match oracle p.1 p.2 == .matched)
    · rw [if_pos hall]
      exact ⟨fun _ => ⟨h, fun p hp =>
          beq_iff_eq.mp (List.all_eq_true.mp hall p hp)⟩,
        fun _ => rfl⟩
    · rw [if_neg hall]
      exact ⟨fun hc => absurd hc (by decide),
        fun hc => absurd (List.all_eq_true.mpr
          (fun p hp => beq_iff_eq.mpr (hc.2 p hp))) hall⟩
  · rw [if_pos h]
    exact ⟨⟨fun hc => absurd hc (by decide), fun hc => absurd hc.1 h⟩,
      fun _ => rfl⟩

/-- Witness for `overloaded_types_match_spec`: a one-signature overload set
against an empty one is a MISMATCH. -/
theorem overloaded_types_match_spec_witness :
    ([⟨[.arg_pos], 0⟩] : List CallableType).length ≠
        ([] : List CallableType).length ∧
      _overloaded_types_match oracleTrue [⟨[.arg_pos], 0⟩] [] = .mismatch :=
  ⟨by decide,
    (overloaded_types_match_spec oracleTrue [⟨[.arg_pos], 0⟩] []).2
      (by decide)⟩

/-! ## C1: absent reference type -/

/-- C1 counterexample: a pair of function symbols where the reference's
type is absent does NOT compare as MATCH — the candidate's own type is a
callable, so `compare_symbols` returns MISMATCH before the generic-type
rule is reached, even under an oracle affirming every query. -/
theorem absent_reference_counterexample :
    ((compare_symbols oracleTrue
        (.funcDef ⟨"mod.f", some (.callable ⟨[.arg_pos], 0⟩)⟩)
        (.funcDef ⟨"mod.f", none⟩)).toOption.map
      (fun res => res.match_result)) ≠ some .matched := by
  decide

/-- C1 amended: for same-kind symbols carrying a type expression whose
reference type is absent (`None`), `compare_symbols` returns MATCH unless
the candidate's own type is `FunctionLike` (a callable or overload type),
in which case it returns MISMATCH — for function, overloaded-function and
variable symbols alike. -/
theorem absent_reference_rule (oracle : Oracle) (t : Option TypeNode)
    (n₁ n₂ : String) :
    ((compare_symbols oracle (.funcDef { fullname := n₁, type := t })
        (.funcDef { fullname := n₂, type := none })).toOption.map
          (fun res => res.match_result) =
        some (if (t.map TypeNode.isFunctionLike).getD false then
          MatchResult.mismatch else .matched)) ∧
    ((compare_symbols oracle (.overloadedFuncDef n₁ t)
        (.overloadedFuncDef n₂ none)).toOption.map
          (fun res => res.match_result) =
        some (if (t.map TypeNode.isFunctionLike).getD false then
          MatchResult.mismatch else .matched)) ∧
    ((compare_symbols oracle (.var n₁ t) (.var n₂ none)).toOption.map
          (fun res => res.match_result) =
        some (if (t.map TypeNode.isFunctionLike).getD false then
          MatchResult.mismatch else .matched)) := by
  refine ⟨?_, ?_, ?_⟩ <;>
    (cases t with
     | none => rfl
     | some tv => cases tv <;> rfl)

/-! ## C6: decorated functions -/

/-- C6: comparing two decorated-function symbols never raises; the result is
MATCH iff the ordered decorator-reference-name lists are identical and the
wrapped function symbols recursively match, and on differing decorator
lists the result is MISMATCH with both lists attached as data. -/
theorem compare_decorator_spec (oracle : Oracle) (fn₁ fn₂ : String)
    (sDecs rDecs : List Expression) (sFunc rFunc : FuncDefData) :
    ∃ res,
      compare_symbols oracle (.decorator fn₁ sDecs sFunc)
          (.decorator fn₂ rDecs rFunc) = .ok res ∧
      (res.match_result = .matched ↔
        sDecs.map get_expression_fullname =
            rDecs.map get_expression_fullname ∧
          (compare_symbols oracle (.funcDef sFunc)
              (.funcDef rFunc)).toOption.map (fun fc => fc.match_result) =
            some .matched) ∧
      (sDecs.map get_expression_fullname ≠
          rDecs.map get_expression_fullname →
        res.match_result = .mismatch ∧
          res.data = some (.decoratorLists
            (sDecs.map get_expression_fullname)
            (rDecs.map get_expression_fullname))) := by
  by_cases hd : sDecs.map get_expression_fullname =
      rDecs.map get_expression_fullname
  · refine ⟨_, rfl, ?_, fun hc => absurd hd hc⟩
    show (_compare_decorator oracle _ _ sDecs rDecs sFunc rFunc).match_result
        = .matched ↔ _
    rw [_compare_decorator, if_pos hd]
    simp [ComparisonResult.create, compare_symbols_funcDef_eq_typed, hd,
      Except.toOption]
  · refine ⟨_, rfl, ?_, fun _ => ?_⟩
    · show (_compare_decorator oracle _ _ sDecs rDecs sFunc rFunc).match_result
          = .matched ↔ _
      rw [_compare_decorator, if_neg hd]
      simp only [ComparisonResult.create_mismatch, ComparisonResult.create]
      exact ⟨fun hc => absurd hc (by decide), fun hc => absurd hc.1 hd⟩
    · show (_compare_decorator oracle _ _ sDecs rDecs sFunc rFunc).match_result
          = .mismatch ∧ _
      rw [_compare_decorator, if_neg hd]
      exact ⟨rfl, rfl⟩

/-- Witness for `compare_decorator_spec`: two decorators with different
reference names mismatch, with both lists attached. -/
theorem compare_decorator_spec_witness :
    ([Expression.ref "m.dec"].map get_expression_fullname ≠
        [Expression.ref "m.other"].map get_expression_fullname) ∧
      ∃ res,
        compare_symbols oracleTrue
            (.decorator "m.f" [.ref "m.dec"] { fullname := "m.f", type := none })
            (.decorator "m.f" [.ref "m.other"] { fullname := "m.f", type := none })
          = .ok res ∧
        res.match_result = .mismatch ∧
        res.data = some (.decoratorLists [some "m.dec"] [some "m.other"]) := by
  obtain ⟨res, he, _, himp⟩ := compare_decorator_spec oracleTrue "m.f" "m.f"
    [.ref "m.dec"] [.ref "m.other"] { fullname := "m.f", type := none }
    { fullname := "m.f", type := none }
  exact ⟨by decide, res, he, (himp (by decide)).1,
    by simpa using (himp (by decide)).2⟩

/-! ## C7: type parameters -/

/-- A string stays a prefix (at the character level) after appending. -/
theorem prefix_data_extend {a s : String} (h : a.data <+: s.data)
    (t : String) : a.data <+: (s ++ t).data := by
  rw [String.data_append]
  exact h.trans (List.prefix_append s.data t.data)

/-- The left operand of a string append is a prefix at the character
level. -/
theorem prefix_data_left (a b : String) : a.data <+: (a ++ b).data := by
  rw [String.data_append]
  exact List.prefix_append a.data b.data

/-- The right operand of a string append is an infix at the character
level. -/
theorem infix_data_right (s t : String) : t.data <:+: (s ++ t).data :=
  ⟨s.data, [], by simp [String.data_append]⟩

/-- A string stays an infix (at the character level) after appending. -/
theorem infix_data_extend {a s : String} (h : a.data <:+: s.data)
    (t : String) : a.data <:+: (s ++ t).data := by
  rw [String.data_append]
  exact h.trans ⟨[], t.data, by simp⟩

/-- The name of a formatted type variable occurs in (is a prefix of) its
`_format_type_var` rendering. -/
theorem format_type_var_begins_with_name (f n : String) (vals : List TypeNode)
    (var : Variance) : n.data <+: (_format_type_var f n vals var).data := by
  dsimp only [_format_type_var]
  exact prefix_data_extend (prefix_data_extend (prefix_data_extend
    (prefix_data_extend (prefix_data_extend (prefix_data_left n _) _) _) _) _) _

/-- Both type-variable names occur in the `NotImplementedError` message. -/
theorem typeVarMsg_names_infix (sFull sName rFull rName : String)
    (sValues rValues : List TypeNode) (sVar rVar : Variance) :
    List.IsInfix sName.data
        (typeVarNotImplementedMsg sFull sName sValues sVar
          rFull rName rValues rVar).data ∧
      List.IsInfix rName.data
        (typeVarNotImplementedMsg sFull sName sValues sVar
          rFull rName rValues rVar).data := by
  dsimp only [typeVarNotImplementedMsg]
  constructor
  · exact (format_type_var_begins_with_name sFull sName sValues sVar).isInfix.trans
      (infix_data_extend (infix_data_extend (infix_data_right _ _) _) _)
  · exact (format_type_var_begins_with_name rFull rName rValues rVar).isInfix.trans
      (infix_data_right _ _)

/-- C7: comparing two type-parameter symbols applies the generic-type rule
to the upper bounds, without raising, when neither side declares permitted
values; when either side declares a non-empty value set the comparison
raises (returns no `ComparisonResult`) with a message naming both
offending type parameters. -/
theorem compare_type_var_spec (oracle : Oracle)
    (sFull sName rFull rName : String) (sValues rValues : List TypeNode)
    (sBound rBound : TypeNode) (sVar rVar : Variance) :
    (sValues = [] ∧ rValues = [] →
      compare_symbols oracle (.typeVarExpr sFull sName sValues sBound sVar)
          (.typeVarExpr rFull rName rValues rBound rVar) =
        .ok (compare_mypy_types oracle
          (.typeVarExpr sFull sName sValues sBound sVar)
          (.typeVarExpr rFull rName rValues rBound rVar)
          (some sBound) (some rBound))) ∧
    (¬(sValues = [] ∧ rValues = []) →
      compare_symbols oracle (.typeVarExpr sFull sName sValues sBound sVar)
          (.typeVarExpr rFull rName rValues rBound rVar) =
        .error (typeVarNotImplementedMsg sFull sName sValues sVar
          rFull rName rValues rVar) ∧
      List.IsInfix sName.data
        (typeVarNotImplementedMsg sFull sName sValues sVar
          rFull rName rValues rVar).data ∧
      List.IsInfix rName.data
        (typeVarNotImplementedMsg sFull sName sValues sVar
          rFull rName rValues rVar).data) := by
  constructor
  · rintro ⟨h1, h2⟩
    subst h1; subst h2
    rfl
  · intro hne
    have hb : (sValues.isEmpty && rValues.isEmpty) = false := by
      rcases sValues with _ | ⟨v, vs⟩
      · rcases rValues with _ | ⟨w, ws⟩
        · exact absurd ⟨rfl, rfl⟩ hne
        · rfl
      · rfl
    refine ⟨?_, typeVarMsg_names_infix sFull sName rFull rName
      sValues rValues sVar rVar⟩
    simp [compare_symbols, hb, SymbolNode.pyClass]

/-- Witness for `compare_type_var_spec`: a type variable with one listed
value against one with none raises the not-implemented error, whose
message contains both names. -/
theorem compare_type_var_spec_witness :
    (¬([TypeNode.other 1] = ([] : List TypeNode) ∧
        ([] : List TypeNode) = [])) ∧
      (compare_symbols oracleTrue
          (.typeVarExpr "m.T" "T" [.other 1] (.other 0) .invariant)
          (.typeVarExpr "m.S" "S" [] (.other 0) .invariant) =
        .error (typeVarNotImplementedMsg "m.T" "T" [.other 1] .invariant
          "m.S" "S" [] .invariant) ∧
      List.IsInfix "T".data
        (typeVarNotImplementedMsg "m.T" "T" [.other 1] .invariant
          "m.S" "S" [] .invariant).data ∧
      List.IsInfix "S".data
        (typeVarNotImplementedMsg "m.T" "T" [.other 1] .invariant
          "m.S" "S" [] .invariant).data) :=
  ⟨by simp,
    (compare_type_var_spec oracleTrue "m.T" "T" "m.S" "S" [.other 1] []
      (.other 0) (.other 0) .invariant .invariant).2 (by simp)⟩

/-! ## Collector invariants -/

/-- A skipped step satisfies the collector invariant. -/
theorem CollectOK.nil (v : Finset QName) : CollectOK v (v, []) :=
  ⟨Finset.Subset.refl v, List.nodup_nil, by simp⟩

/-- The collector invariant is antitone in the starting visited set. -/
theorem CollectOK.weaken {v v' : Finset QName} {r : Finset QName × List QName}
    (hvv : v ⊆ v') (h : CollectOK v' r) : CollectOK v r := by
  obtain ⟨h1, h2, h3⟩ := h
  exact ⟨hvv.trans h1, h2,
    fun n hn => ⟨fun hv => (h3 n hn).1 (hvv hv), (h3 n hn).2⟩⟩

/-- Two collector steps in sequence (the second starting from the first's
visited set) satisfy the invariant with their outputs concatenated. -/
theorem CollectOK.seq {v : Finset QName} {r1 r2 : Finset QName × List QName}
    (h1 : CollectOK v r1) (h2 : CollectOK r1.1 r2) :
    CollectOK v (r2.1, r1.2 ++ r2.2) := by
  obtain ⟨hs1, hn1, hm1⟩ := h1
  obtain ⟨hs2, hn2, hm2⟩ := h2
  refine ⟨hs1.trans hs2, ?_, ?_⟩
  · refine hn1.append hn2 ?_
    intro a ha1 ha2
    exact (hm2 a ha2).1 ((hm1 a ha1).2.1)
  · intro n hn
    rcases List.mem_append.mp hn with h | h
    · exact ⟨(hm1 n h).1, hs2 ((hm1 n h).2.1), (hm1 n h).2.2⟩
    · exact ⟨fun hv => (hm2 n h).1 (hs1 hv), (hm2 n h).2.1, (hm2 n h).2.2⟩

/-- The module-member loop preserves the collector invariant whenever the
injected recursive call does. -/
theorem collectModuleMembers_inv
    (recurse : QName → Finset QName → Finset QName × List QName)
    (hrec : ∀ name visited, CollectOK visited (recurse name visited)) :
    ∀ names visited,
      CollectOK visited (collectModuleMembers recurse names visited) := by
  intro names
  induction names with
  | nil => intro visited; exact CollectOK.nil visited
  | cons symbol rest ih =>
    intro visited
    rcases hn : symbol.node with _ | node
    · simpa [collectModuleMembers, hn] using ih visited
    · by_cases hp : symbol.module_public
      · simpa [collectModuleMembers, hn, hp] using
          CollectOK.seq (hrec node visited) (ih (recurse node visited).1)
      · simpa [collectModuleMembers, hn, hp] using ih visited

/-- The class-member loop preserves the collector invariant whenever the
injected recursive call does. -/
theorem collectClassMembers_inv
    (recurse : QName → Finset QName → Finset QName × List QName)
    (hrec : ∀ name visited, CollectOK visited (recurse name visited)) :
    ∀ names visited,
      CollectOK visited (collectClassMembers recurse names visited) := by
  intro names
  induction names with
  | nil => intro visited; exact CollectOK.nil visited
  | cons class_member rest ih =>
    intro visited
    rcases hn : class_member.node with _ | node
    · simpa [collectClassMembers, hn] using ih visited
    · simpa [collectClassMembers, hn] using
        CollectOK.seq (hrec node visited) (ih (recurse node visited).1)

/-- Every step of `collect_types` satisfies the collector invariant: the
visited set grows, the yielded names are pairwise distinct, previously
unvisited, visited afterwards, and never contain `"builtins"`. -/
theorem collect_types_inv (heap : Heap) :
    ∀ fuel name visited,
      CollectOK visited (collect_types heap fuel name visited) := by
  intro fuel
  induction fuel with
  | zero => intro name visited; exact CollectOK.nil visited
  | succ fuel ih =>
    intro name visited
    by_cases hbi : containsBuiltins name
    · simpa [collect_types, hbi] using CollectOK.nil visited
    by_cases hv : name ∈ visited
    · simpa [collect_types, hbi, hv] using CollectOK.nil visited
    have hsub : visited ⊆ insert name visited := Finset.subset_insert name visited
    have hbi' : containsBuiltins name = false := by simpa using hbi
    have hleaf : CollectOK visited (insert name visited, [name]) := by
      refine ⟨hsub, List.nodup_singleton name, ?_⟩
      intro n hn
      rw [List.mem_singleton] at hn
      subst hn
      exact ⟨hv, Finset.mem_insert_self _ _, hbi'⟩
    rcases hl : heap.lookup name with _ | d
    · exact by simpa [collect_types, hbi, hv, hl] using
        CollectOK.weaken hsub (CollectOK.nil (insert name visited))
    cases d with
    | mypyFile names =>
        simpa [collect_types, hbi, hv, hl] using
          CollectOK.weaken hsub
            (collectModuleMembers_inv (collect_types heap fuel)
              (fun n v => ih n v) names (insert name visited))
    | typeInfo names =>
        have hcm := collectClassMembers_inv (collect_types heap fuel)
          (fun n v => ih n v) names (insert name visited)
        have : CollectOK visited
            ((collectClassMembers (collect_types heap fuel) names
                (insert name visited)).1,
              name :: (collectClassMembers (collect_types heap fuel) names
                (insert name visited)).2) := by
          refine ⟨hsub.trans hcm.1, ?_, ?_⟩
          · exact List.nodup_cons.mpr
              ⟨fun hmem => (hcm.2.2 name hmem).1
                (Finset.mem_insert_self name visited), hcm.2.1⟩
          · intro n hn
            rcases List.mem_cons.mp hn with h | h
            · subst h
              exact ⟨hv, hcm.1 (Finset.mem_insert_self _ _), hbi'⟩
            · exact ⟨fun hnv => (hcm.2.2 n h).1
                  (Finset.mem_insert_of_mem hnv),
                (hcm.2.2 n h).2.1, (hcm.2.2 n h).2.2⟩
        simpa [collect_types, hbi, hv, hl] using this
    | funcDef => simpa [collect_types, hbi, hv, hl] using hleaf
    | overloadedFuncDef => simpa [collect_types, hbi, hv, hl] using hleaf
    | var => simpa [collect_types, hbi, hv, hl] using hleaf
    | typeAlias => simpa [collect_types, hbi, hv, hl] using hleaf
    | typeVarExpr => simpa [collect_types, hbi, hv, hl] using hleaf
    | decorator => simpa [collect_types, hbi, hv, hl] using hleaf

/-! ## Collector fuel stability (termination) -/

/-- A successful heap lookup means the name is one of the graph's names. -/
theorem mem_heapNames_of_lookup {heap : Heap} {name : QName}
    {d : SymbolNodeData} (h : heap.lookup name = some d) :
    name ∈ heapNames heap := by
  induction heap with
  | nil => simp [List.lookup] at h
  | cons kv rest ih =>
    rcases kv with ⟨k, v⟩
    by_cases hk : name = k
    · simp [heapNames, hk]
    · have hk' : (name == k) = false := beq_eq_false_iff_ne.mpr hk
      rw [List.lookup, hk'] at h
      have := ih h
      simp only [heapNames, List.map_cons, List.toFinset_cons,
        Finset.mem_insert]
      exact Or.inr (by simpa [heapNames] using this)

/-- Inserting an unvisited graph name strictly shrinks the set of graph
names left to visit. -/
theorem card_sdiff_insert_lt {heap : Heap} {name : QName}
    {visited : Finset QName} (hmem : name ∈ heapNames heap)
    (hv : name ∉ visited) :
    (heapNames heap \ insert name visited).card + 1 =
      (heapNames heap \ visited).card := by
  have hins : heapNames heap \ insert name visited =
      (heapNames heap \ visited).erase name := by
    ext a
    simp only [Finset.mem_sdiff, Finset.mem_insert, Finset.mem_erase]
    constructor
    · rintro ⟨ha, hna⟩
      exact ⟨fun he => hna (Or.inl he), ha, fun hav => hna (Or.inr hav)⟩
    · rintro ⟨hne, ha, hav⟩
      exact ⟨ha, fun hc => hc.elim hne hav⟩
  rw [hins, Finset.card_erase_of_mem (Finset.mem_sdiff.mpr ⟨hmem, hv⟩)]
  have : 0 < (heapNames heap \ visited).card :=
    Finset.card_pos.mpr ⟨name, Finset.mem_sdiff.mpr ⟨hmem, hv⟩⟩
  omega

/-- The set of graph names left to visit only shrinks along a collector
step. -/
theorem card_sdiff_collect_le (heap : Heap) (fuel : Nat) (name : QName)
    (visited : Finset QName) :
    (heapNames heap \ (collect_types heap fuel name visited).1).card ≤
      (heapNames heap \ visited).card :=
  Finset.card_le_card (Finset.sdiff_subset_sdiff (Finset.Subset.refl _)
    (collect_types_inv heap fuel name visited).1)

/-- The module-member loop computes the same result at two fuels whenever
the injected recursive calls agree under the card bound. -/
theorem collectModuleMembers_fuel (heap : Heap) (f f' : Nat)
    (hrec : ∀ name visited,
      (heapNames heap \ visited).card < f →
      (heapNames heap \ visited).card < f' →
      collect_types heap f name visited = collect_types heap f' name visited) :
    ∀ names visited,
      (heapNames heap \ visited).card < f →
      (heapNames heap \ visited).card < f' →
      collectModuleMembers (collect_types heap f) names visited =
        collectModuleMembers (collect_types heap f') names visited := by
  intro names
  induction names with
  | nil => intro visited _ _; rfl
  | cons symbol rest ih =>
    intro visited h1 h2
    rcases hn : symbol.node with _ | node
    · simp only [collectModuleMembers, hn]
      exact ih visited h1 h2
    · by_cases hp : symbol.module_public
      · have he := hrec node visited h1 h2
        have hc1 : (heapNames heap \
            (collect_types heap f node visited).1).card < f :=
          lt_of_le_of_lt (card_sdiff_collect_le heap f node visited) h1
        have hc2 : (heapNames heap \
            (collect_types heap f node visited).1).card < f' :=
          lt_of_le_of_lt (card_sdiff_collect_le heap f node visited) h2
        have ht := ih (collect_types heap f node visited).1 hc1 hc2
        simp only [collectModuleMembers, hn, hp, if_true]
        rw [← he, ht, he]
      · simp only [collectModuleMembers, hn, hp, if_false]
        exact ih visited h1 h2

/-- The class-member loop computes the same result at two fuels whenever
the injected recursive calls agree under the card bound. -/
theorem collectClassMembers_fuel (heap : Heap) (f f' : Nat)
    (hrec : ∀ name visited,
      (heapNames heap \ visited).card < f →
      (heapNames heap \ visited).card < f' →
      collect_types heap f name visited = collect_types heap f' name visited) :
    ∀ names visited,
      (heapNames heap \ visited).card < f →
      (heapNames heap \ visited).card < f' →
      collectClassMembers (collect_types heap f) names visited =
        collectClassMembers (collect_types heap f') names visited := by
  intro names
  induction names with
  | nil => intro visited _ _; rfl
  | cons class_member rest ih =>
    intro visited h1 h2
    rcases hn : class_member.node with _ | node
    · simp only [collectClassMembers, hn]
      exact ih visited h1 h2
    · have he := hrec node visited h1 h2
      have hc1 : (heapNames heap \
          (collect_types heap f node visited).1).card < f :=
        lt_of_le_of_lt (card_sdiff_collect_le heap f node visited) h1
      have hc2 : (heapNames heap \
          (collect_types heap f node visited).1).card < f' :=
        lt_of_le_of_lt (card_sdiff_collect_le heap f node visited) h2
      have ht := ih (collect_types heap f node visited).1 hc1 hc2
      simp only [collectClassMembers, hn]
      rw [← he, ht, he]

/-- Fuel stability: any two fuels strictly above the number of graph names
left to visit compute the same collector result.  This is the termination
argument for the source's unbounded recursion. -/
theorem collect_types_fuel (heap : Heap) :
    ∀ f f' name visited,
      (heapNames heap \ visited).card < f →
      (heapNames heap \ visited).card < f' →
      collect_types heap f name visited =
        collect_types heap f' name visited := by
  intro f
  induction f with
  | zero => intro f' name visited h1 _; exact absurd h1 (Nat.not_lt_zero _)
  | succ f ihf =>
    intro f' name visited h1 h2
    obtain ⟨f'', rfl⟩ : ∃ k, f' = k + 1 := ⟨f' - 1, by omega⟩
    by_cases hbi : containsBuiltins name
    · simp [collect_types, hbi]
    by_cases hv : name ∈ visited
    · simp [collect_types, hbi, hv]
    rcases hl : heap.lookup name with _ | d
    · simp [collect_types, hbi, hv, hl]
    have hmem : name ∈ heapNames heap := mem_heapNames_of_lookup hl
    have hcard := card_sdiff_insert_lt hmem hv
    have hcf : (heapNames heap \ insert name visited).card < f := by omega
    have hcf' : (heapNames heap \ insert name visited).card < f'' := by omega
    have hrec : ∀ n v,
        (heapNames heap \ v).card < f →
        (heapNames heap \ v).card < f'' →
        collect_types heap f n v = collect_types heap f'' n v :=
      fun n v hh1 hh2 => ihf f'' n v hh1 hh2
    cases d with
    | mypyFile names =>
        simp only [collect_types, hbi, hv, hl]
        exact collectModuleMembers_fuel heap f f'' hrec names
          (insert name visited) hcf hcf'
    | typeInfo names =>
        simp only [collect_types, hbi, hv, hl]
        rw [collectClassMembers_fuel heap f f'' hrec names
          (insert name visited) hcf hcf']
    | funcDef => simp [collect_types, hbi, hv, hl]
    | overloadedFuncDef => simp [collect_types, hbi, hv, hl]
    | var => simp [collect_types, hbi, hv, hl]
    | typeAlias => simp [collect_types, hbi, hv, hl]
    | typeVarExpr => simp [collect_types, hbi, hv, hl]
    | decorator => simp [collect_types, hbi, hv, hl]

/-! ## C8: each qualified name collected at most once; termination -/

/-- C8: one collector call on any declaration graph — cyclic or aliased
references included — yields each qualified name at most once (the output
is duplicate-free), and the computation is stable in the fuel bound: every
fuel at least `heapFuel` computes the very same finite output, which is the
termination of the source's unbounded recursion. -/
theorem collector_yields_each_name_once (heap : Heap) (root : QName) :
    (collectTypesRun heap root).Nodup ∧
      ∀ fuel, heapFuel heap ≤ fuel →
        (collect_types heap fuel root ∅).2 = collectTypesRun heap root := by
  have hle : (heapNames heap \ ∅).card < heapFuel heap := by
    have h1 : (heapNames heap).card ≤ heap.length := by
      have h2 := (heap.map Prod.fst).toFinset_card_le
      simpa [heapNames] using h2
    rw [Finset.sdiff_empty]
    simp only [heapFuel]
    omega
  refine ⟨(collect_types_inv heap (heapFuel heap) root ∅).2.1, ?_⟩
  intro fuel hf
  have hfu : (heapNames heap \ ∅).card < fuel := lt_of_lt_of_le hle hf
  exact congrArg Prod.snd
    (collect_types_fuel heap fuel (heapFuel heap) root ∅ hfu hle)

/-- Witness for `collector_yields_each_name_once` on a cyclic graph (the
class `m.C` lists itself as a member). -/
theorem collector_yields_each_name_once_witness :
    (collectTypesRun
        [("m", .mypyFile [⟨.gdef, true, some "m.C"⟩]),
         ("m.C", .typeInfo [⟨.mdef, true, some "m.C.f"⟩,
            ⟨.mdef, true, some "m.C"⟩]),
         ("m.C.f", .funcDef)] "m").Nodup ∧
      (collect_types
          [("m", .mypyFile [⟨.gdef, true, some "m.C"⟩]),
           ("m.C", .typeInfo [⟨.mdef, true, some "m.C.f"⟩,
              ⟨.mdef, true, some "m.C"⟩]),
           ("m.C.f", .funcDef)]
          (heapFuel [("m", .mypyFile [⟨.gdef, true, some "m.C"⟩]),
            ("m.C", .typeInfo [⟨.mdef, true, some "m.C.f"⟩,
              ⟨.mdef, true, some "m.C"⟩]),
            ("m.C.f", .funcDef)] + 7) "m" ∅).2 =
        collectTypesRun
          [("m", .mypyFile [⟨.gdef, true, some "m.C"⟩]),
           ("m.C", .typeInfo [⟨.mdef, true, some "m.C.f"⟩,
              ⟨.mdef, true, some "m.C"⟩]),
           ("m.C.f", .funcDef)] "m" :=
  ⟨(collector_yields_each_name_once _ "m").1,
    (collector_yields_each_name_once _ "m").2 _ (Nat.le_add_right _ 7)⟩

/-! ## C10: the builtins filter is a substring test -/

/-- C10: the builtins filter tests substring containment, not a namespace
prefix: any node whose qualified name contains `"builtins"` anywhere is
skipped immediately — the collector returns its visited set unchanged and
yields nothing through that node — and consequently no name containing
`"builtins"` ever appears in a collector run's output. -/
theorem builtins_substring_filter :
    (∀ (heap : Heap) (fuel : Nat) (name : QName) (visited : Finset QName),
      containsBuiltins name = true →
      collect_types heap fuel name visited = (visited, [])) ∧
    (∀ (heap : Heap) (root : QName) (n : QName),
      n ∈ collectTypesRun heap root → containsBuiltins n = false) := by
  constructor
  · intro heap fuel name visited h
    cases fuel with
    | zero => rfl
    | succ fuel => simp [collect_types, h]
  · intro heap root n hn
    exact ((collect_types_inv heap (heapFuel heap) root ∅).2.2 n hn).2.2

/-- Witness for `builtins_substring_filter`: the user module name
`my_builtins_helpers` merely contains `"builtins"` as a substring — it is
not under the `builtins` namespace — yet the collector skips it entirely,
never reaching its public member `x`. -/
theorem builtins_substring_filter_witness :
    containsBuiltins "my_builtins_helpers" = true ∧
      collect_types
          [("my_builtins_helpers", .mypyFile [⟨.gdef, true, some "x"⟩]),
           ("x", .var)] 5 "my_builtins_helpers" ∅ = (∅, []) :=
  ⟨by decide,
    builtins_substring_filter.1
      [("my_builtins_helpers", .mypyFile [⟨.gdef, true, some "x"⟩]),
       ("x", .var)] 5 "my_builtins_helpers" ∅ (by decide)⟩

/-! ## C2: the module member-kind filter is a no-op -/

/-- C2: in the source, the test `symbol.kind not in [GDEF, MDEF]` guards
only a `pass` statement, so the module loop recurses into every public
member regardless of its definition kind: the member loop's result does
not depend on the entry's kind at all, and on a concrete module whose only
member is a public name of import kind (`UNBOUND_IMPORTED`, not
GDEF/MDEF) the collector does recurse and yields the imported symbol. -/
theorem collector_ignores_member_kind :
    (collectTypesRun
        [("m", .mypyFile [⟨.unboundImported, true, some "other.x"⟩]),
         ("other.x", .var)] "m" = ["other.x"]) ∧
    (∀ (recurse : QName → Finset QName → Finset QName × List QName)
        (k k' : SymKind) (pub : Bool) (node : Option QName)
        (rest : List TableEntry) (visited : Finset QName),
      collectModuleMembers recurse (⟨k, pub, node⟩ :: rest) visited =
        collectModuleMembers recurse (⟨k', pub, node⟩ :: rest) visited) :=
  ⟨rfl, fun _ _ _ _ _ _ _ => rfl⟩

end StubAnalyzer
